import Mathlib

set_option maxRecDepth 10000
set_option maxHeartbeats 1600000

/-
  Verification of the esp8266 AT-command driver (libembeddedhal/libesp8266,
  src/include/libesp8266/esp8266.hpp) against its natural-language
  specification.  The driver is shallowly embedded: bytes are `Nat`
  (conceptually < 256), the serial device is a pair of byte lists
  (unread input / written output), buffers are byte lists, and every
  stateful C++ method becomes a pure function from state to state.
-/

namespace embed

/-- Model of the non-blocking serial device: `input` holds the bytes the
driver has not read yet, `output` collects every byte the driver wrote.
`flush` and the `busy()` TX-drain poll are no-ops of this model. -/
structure Serial where
  input : List Nat
  output : List Nat
deriving DecidableEq, Repr

/-- Appending bytes to the serial TX side (C++ `serial.write` followed by
the local busy-wait, which terminates immediately in the model). -/
def serial_write (s : Serial) (bs : List Nat) : Serial :=
  { s with output := s.output ++ bs }

/-- Byte list of an ASCII string literal. -/
def strBytes (s : String) : List Nat := s.toList.map Char.toNat

/-- ASCII digit test, the model of C `isdigit` on the byte values the
driver actually receives. -/
def isDigitByte (b : Nat) : Bool := 48 ≤ b && b ≤ 57

/-- ASCII whitespace test, the model of the whitespace skipping performed
by `sscanf` conversions. -/
def isSpaceByte (b : Nat) : Bool := b = 32 || (9 ≤ b && b ≤ 13)

/-- Exact value of a run of ASCII digit bytes, most significant first. -/
def decVal : Nat → List Nat → Nat
  | acc, [] => acc
  | acc, b :: t => decVal (acc * 10 + (b - 48)) t

/-- The same accumulation performed on a 32-bit unsigned accumulator, as
`read_integer::done` does on its `uint32_t m_integer`. -/
def decValM : Nat → List Nat → Nat
  | acc, [] => acc
  | acc, b :: t => decValM ((acc * 10 + (b - 48)) % 4294967296) t

/-- Model of an `sscanf` `%u` conversion at a given position: skip
whitespace, then require at least one digit. -/
def scanU32 (bs : List Nat) : Option Nat :=
  let ds := (bs.dropWhile fun b => isSpaceByte b).takeWhile fun b => isDigitByte b
  if ds.isEmpty then none else some (decValM 0 ds)

/-- First index at which `needle` occurs as a contiguous subsequence of the
haystack, the model of `std::string_view::find`. -/
def findSublist (needle : List Nat) : List Nat → Option Nat
  | [] => if needle.isEmpty then some 0 else none
  | b :: t =>
    if needle.isPrefixOf (b :: t) then some 0
    else (findSublist needle t).map fun i => i + 1

/-- Overwrite `buf` starting at `pos` with `bytes`, the model of writing
through a subspan of a driver-owned buffer. -/
def spliceAt (buf : List Nat) (pos : Nat) (bytes : List Nat) : List Nat :=
  buf.take pos ++ (bytes ++ buf.drop (pos + bytes.length))

/-- Decimal rendering of a natural number as ASCII bytes (`snprintf %d`
for the non-negative values the driver produces). -/
def natDecimalBytes (n : Nat) : List Nat := (Nat.toDigits 10 n).map Char.toNat

/-- Model of `snprintf(buf, buf.size, ...)` writing `content`: at most
`size - 1` bytes are stored followed by a NUL; the return value (the
untruncated length) is handled by the caller. -/
def snprintf_write (buf : List Nat) (content : List Nat) : List Nat :=
  if buf.isEmpty then buf
  else
    let n := min content.length (buf.length - 1)
    content.take n ++ (0 :: buf.drop (n + 1))

/-- State of the `command_and_find_response` reader (scan-for-sequence). -/
structure command_and_find_response where
  m_search_index : Nat := 0
  m_sent_command : Bool := false
  m_command : List Nat := []
  m_sequence : List Nat := []
deriving DecidableEq, Repr

/-- The C++ `command_and_find_response::new_search`. -/
def cfr_new_search (p_command p_sequence : List Nat)
    (r : command_and_find_response) : command_and_find_response :=
  { r with m_search_index := 0, m_sent_command := false,
           m_command := p_command, m_sequence := p_sequence }

/-- The byte-consuming tail of `command_and_find_response::done`: read one
byte if available; on match advance the cursor, on mismatch reset it to 0. -/
def cfr_read (r : command_and_find_response) (s : Serial) :
    Bool × command_and_find_response × Serial :=
  match s.input with
  | [] => (false, r, s)
  | b :: rest =>
    let s2 : Serial := { s with input := rest }
    if r.m_sequence[r.m_search_index]? = some b then
      (false, { r with m_search_index := r.m_search_index + 1 }, s2)
    else
      (false, { r with m_search_index := 0 }, s2)

/-- The C++ `command_and_find_response::done`: report done when the cursor
has reached the terminator size, otherwise send the command once and scan
one byte. -/
def cfr_done (r : command_and_find_response) (s : Serial) :
    Bool × command_and_find_response × Serial :=
  if r.m_search_index = r.m_sequence.length then (true, r, s)
  else if r.m_sent_command then cfr_read r s
  else cfr_read { r with m_sent_command := true } (serial_write s r.m_command)

/-- One cooperative tick of the scan reader on a (result, reader, serial)
triple. -/
def cfr_tick (x : Bool × command_and_find_response × Serial) :
    Bool × command_and_find_response × Serial := cfr_done x.2.1 x.2.2

/-- Feed `n` ticks to the scan reader; the Bool is the return value of the
last `done()` call (`false` when no tick has run). -/
def cfr_run (n : Nat) (r : command_and_find_response) (s : Serial) :
    Bool × command_and_find_response × Serial := cfr_tick^[n] (false, r, s)

/-- State of the `read_integer` reader.  Freshly constructed instances are
already finished, as in the source. -/
structure read_integer where
  m_finished : Bool := true
  m_found_digit : Bool := false
  m_integer : Nat := 0
deriving DecidableEq, Repr

/-- The C++ `read_integer::restart`. -/
def ri_restart (r : read_integer) : read_integer :=
  { r with m_finished := false, m_found_digit := false, m_integer := 0 }

/-- The C++ `read_integer::done`: skip non-digits, accumulate digits on a
32-bit accumulator, finish on the first non-digit after a digit (that byte
is consumed). -/
def ri_done (r : read_integer) (s : Serial) : Bool × read_integer × Serial :=
  if r.m_finished then (true, r, s)
  else
    match s.input with
    | [] => (false, r, s)
    | b :: rest =>
      let s2 : Serial := { s with input := rest }
      if isDigitByte b then
        (false, { r with m_integer := (r.m_integer * 10 + (b - 48)) % 4294967296,
                         m_found_digit := true }, s2)
      else if r.m_found_digit then
        (true, { r with m_finished := true }, s2)
      else
        (false, r, s2)

/-- One cooperative tick of the integer reader. -/
def ri_tick (x : Bool × read_integer × Serial) : Bool × read_integer × Serial :=
  ri_done x.2.1 x.2.2

/-- Feed `n` ticks to the integer reader; the Bool is the return value of
the last `done()` call. -/
def ri_run (n : Nat) (r : read_integer) (s : Serial) :
    Bool × read_integer × Serial := ri_tick^[n] (false, r, s)

/-- Which driver-owned buffer a `read_into_buffer` span points into.  The
C++ class stores a raw span; the two spans the driver ever hands it point
into the scratch packet buffer or into the response buffer. -/
inductive buffer_target
  | packet
  | response
deriving DecidableEq, Repr

/-- State of the `read_into_buffer` reader: the destination span is
recorded as (target buffer, offset, length) plus the write index. -/
structure read_into_buffer where
  m_target : buffer_target := buffer_target.packet
  m_offset : Nat := 0
  m_length : Nat := 0
  m_read_index : Nat := 0
deriving DecidableEq, Repr

/-- The HTTP methods of the driver interface (only GET is ever emitted). -/
inductive http_method
  | GET
  | HEAD
  | POST
  | PUT
  | DELETE
  | CONNECT
  | OPTIONS
  | TRACE
  | PATCH
deriving DecidableEq, Repr

/-- The driver's `request_t`: domain, path, method, payload and port, with
the defaults of the source. -/
structure request_t where
  domain : List Nat := []
  path : List Nat := strBytes "/"
  method : http_method := http_method.GET
  send_data : List Nat := []
  port : List Nat := strBytes "80"
deriving DecidableEq, Repr

/-- The parsed response header. -/
structure header_t where
  status_code : Nat := 0
  content_length : Nat := 0
  header_length : Nat := 0
deriving DecidableEq, Repr

/-- The C++ `header_t::is_valid`. -/
def header_t.is_valid (h : header_t) : Bool :=
  h.status_code != 0 && h.content_length != 0 && h.header_length != 0

/-- The transaction phases of `esp8266::state`. -/
inductive state
  | reset
  | disable_echo
  | configure_as_http_client
  | attempting_ap_connection
  | connected_to_ap
  | connecting_to_server
  | preparing_request
  | sending_request
  | get_first_packet_length
  | reading_first_packet
  | parsing_header
  | get_packet_length
  | read_packet_into_response
  | get_next_packet
  | close_connection
  | close_connection_failure
  | complete
  | failure
deriving DecidableEq, Repr

/-- The read sub-modes of `esp8266::read_state`. -/
inductive read_state
  | until_sequence
  | into_buffer
  | integer
  | complete
deriving DecidableEq, Repr

/-- The terminator `OK\r\n`. -/
def ok_bytes : List Nat := strBytes "OK\r\n"

/-- The driver state: response buffer, credentials, the three readers, the
1460-byte scratch packet, the latched request, the parsed header, the
phase bookkeeping, the formatted request length and the response write
cursor. -/
structure esp8266 where
  m_response : List Nat
  m_ssid : List Nat
  m_password : List Nat
  m_commander : command_and_find_response := {}
  m_reader : read_into_buffer := {}
  m_integer_reader : read_integer := {}
  m_packet : List Nat := List.replicate 1460 0
  m_request : request_t := {}
  m_header : header_t := {}
  m_state : state := state.reset
  m_next_state : state := state.reset
  m_read_state : read_state := read_state.complete
  m_request_length : Int := 0
  m_response_position : Nat := 0
deriving DecidableEq, Repr

/-- The buffer a `read_into_buffer` span points into. -/
def target_buffer (e : esp8266) : List Nat :=
  match e.m_reader.m_target with
  | buffer_target.packet => e.m_packet
  | buffer_target.response => e.m_response

/-- Write back the buffer a `read_into_buffer` span points into. -/
def set_target_buffer (e : esp8266) (l : List Nat) : esp8266 :=
  match e.m_reader.m_target with
  | buffer_target.packet => { e with m_packet := l }
  | buffer_target.response => { e with m_response := l }

/-- The C++ `read_into_buffer::done`, acting on the driver state that owns
the destination buffer: when the write index has reached the span size
report done, otherwise consume whatever bytes are available (up to the
remaining span size) and append them at the write index. -/
def rib_done (e : esp8266) (s : Serial) : Bool × esp8266 × Serial :=
  let r := e.m_reader
  if r.m_read_index = r.m_length then (true, e, s)
  else
    let cnt := min s.input.length (r.m_length - r.m_read_index)
    let e2 := set_target_buffer e
      (spliceAt (target_buffer e) (r.m_offset + r.m_read_index) (s.input.take cnt))
    (false, { e2 with m_reader := { r with m_read_index := r.m_read_index + cnt } },
     { s with input := s.input.drop cnt })

/-- The outgoing HTTP request formatted by `preparing_request`:
`GET <path> HTTP/1.1\r\nHost: <domain>:<port>\r\n\r\n\r\n`. -/
def fmt_request (r : request_t) : List Nat :=
  strBytes "GET " ++ r.path ++ strBytes " HTTP/1.1\r\nHost: " ++ r.domain ++
    strBytes ":" ++ r.port ++ strBytes "\r\n\r\n\r\n"

/-- The C++ `esp8266::response_header_from_string`: locate `HTTP/1.1 ` and
scan the status code, locate `Content-Length: ` and scan the length,
locate `\r\n\r\n`; any failure yields the zero header. -/
def response_header_from_string (p_header_info : List Nat) : header_t :=
  match findSublist (strBytes "HTTP/1.1 ") p_header_info with
  | none => {}
  | some i =>
    match scanU32 (p_header_info.drop (i + 9)) with
    | none => {}
    | some status =>
      match findSublist (strBytes "Content-Length: ") p_header_info with
      | none => {}
      | some j =>
        match scanU32 (p_header_info.drop (j + 16)) with
        | none => {}
        | some len =>
          match findSublist (strBytes "\r\n\r\n") p_header_info with
          | none => {}
          | some k => { status_code := status, content_length := len,
                        header_length := k + 4 }

/-- The body of the `sending_request` case of `transition_state`; the
`preparing_request` case falls through into it in the source. -/
def sending_request_action (e : esp8266) (s : Serial) : esp8266 × Serial :=
  ({ e with
      m_commander := cfr_new_search (e.m_response.take e.m_request_length.toNat)
        (strBytes "+IPD,") e.m_commander,
      m_next_state := state.get_first_packet_length,
      m_read_state := read_state.until_sequence }, s)

/-- The C++ `esp8266::transition_state`. -/
def transition_state (e : esp8266) (s : Serial) : esp8266 × Serial :=
  match e.m_state with
  | state.reset => ({ e with m_next_state := state.disable_echo }, s)
  | state.disable_echo =>
    ({ e with m_commander := cfr_new_search (strBytes "ATE0\r\n") ok_bytes e.m_commander,
              m_next_state := state.configure_as_http_client,
              m_read_state := read_state.until_sequence }, s)
  | state.configure_as_http_client =>
    ({ e with m_commander := cfr_new_search (strBytes "AT+CWMODE=1\r\n") ok_bytes e.m_commander,
              m_next_state := state.attempting_ap_connection,
              m_read_state := read_state.until_sequence }, s)
  | state.attempting_ap_connection =>
    let s := serial_write s (strBytes "AT+CWJAP_CUR=\"")
    let s := serial_write s e.m_ssid
    let s := serial_write s (strBytes "\",\"")
    let s := serial_write s e.m_password
    ({ e with m_commander := cfr_new_search (strBytes "\"\r\n") ok_bytes e.m_commander,
              m_next_state := state.connected_to_ap,
              m_read_state := read_state.until_sequence }, s)
  | state.connected_to_ap => (e, s)
  | state.connecting_to_server =>
    let s := serial_write s (strBytes "AT+CIPSTART=\"TCP\",\"")
    let s := serial_write s e.m_request.domain
    let s := serial_write s (strBytes "\",")
    let s := serial_write s e.m_request.port
    ({ e with m_commander := cfr_new_search (strBytes "\r\n") ok_bytes e.m_commander,
              m_next_state := state.preparing_request,
              m_read_state := read_state.until_sequence }, s)
  | state.preparing_request =>
    let content := fmt_request e.m_request
    let e := { e with m_response := snprintf_write e.m_response content,
                      m_request_length := Int.ofNat content.length }
    if e.m_request_length < (0 : Int) then
      ({ e with m_next_state := state.close_connection_failure }, s)
    else
      let cipsend_command := strBytes "AT+CIPSEND=" ++
        natDecimalBytes e.m_request_length.toNat ++ strBytes "\r\n"
      if Int.ofNat cipsend_command.length < (0 : Int) then
        ({ e with m_next_state := state.close_connection_failure }, s)
      else
        let s := serial_write s cipsend_command
        sending_request_action
          { e with m_commander := cfr_new_search [] ok_bytes e.m_commander,
                   m_next_state := state.sending_request,
                   m_read_state := read_state.until_sequence } s
  | state.sending_request => sending_request_action e s
  | state.get_first_packet_length =>
    ({ e with m_integer_reader := ri_restart e.m_integer_reader,
              m_next_state := state.reading_first_packet,
              m_read_state := read_state.integer }, s)
  | state.reading_first_packet =>
    ({ e with m_reader := { m_target := buffer_target.packet, m_offset := 0,
                            m_length := e.m_integer_reader.m_integer, m_read_index := 0 },
              m_next_state := state.parsing_header,
              m_read_state := read_state.into_buffer }, s)
  | state.parsing_header =>
    let h := response_header_from_string e.m_packet
    let e := { e with m_header := h }
    if !h.is_valid then
      ({ e with m_next_state := state.close_connection_failure }, s)
    else if decide (e.m_response.length < h.content_length) then
      ({ e with m_next_state := state.close_connection_failure }, s)
    else if decide (e.m_integer_reader.m_integer < 1460) then
      ({ e with m_response :=
                  spliceAt e.m_response 0 ((e.m_packet.drop h.header_length).take h.content_length),
                m_next_state := state.close_connection }, s)
    else
      let bytes_retrieved := e.m_integer_reader.m_integer - h.header_length
      ({ e with m_response :=
                  spliceAt e.m_response 0 ((e.m_packet.drop h.header_length).take bytes_retrieved),
                m_response_position := bytes_retrieved,
                m_next_state := state.get_packet_length }, s)
  | state.get_packet_length =>
    ({ e with m_integer_reader := ri_restart e.m_integer_reader,
              m_next_state := state.read_packet_into_response,
              m_read_state := read_state.integer }, s)
  | state.read_packet_into_response =>
    ({ e with m_reader := { m_target := buffer_target.response,
                            m_offset := e.m_response_position,
                            m_length := e.m_integer_reader.m_integer, m_read_index := 0 },
              m_next_state := state.get_next_packet,
              m_read_state := read_state.into_buffer }, s)
  | state.get_next_packet =>
    let e := { e with m_response_position := e.m_response_position + e.m_integer_reader.m_integer }
    if decide (e.m_header.content_length ≤ e.m_response_position) then
      ({ e with m_next_state := state.close_connection }, s)
    else
      ({ e with m_next_state := state.get_packet_length }, s)
  | state.close_connection =>
    ({ e with m_commander := cfr_new_search (strBytes "AT+CIPCLOSE\r\n") ok_bytes e.m_commander,
              m_next_state := state.complete,
              m_read_state := read_state.until_sequence }, s)
  | state.close_connection_failure =>
    ({ e with m_commander := cfr_new_search (strBytes "AT+CIPCLOSE\r\n") ok_bytes e.m_commander,
              m_next_state := state.failure,
              m_read_state := read_state.until_sequence }, s)
  | state.complete => (e, s)
  | state.failure => (e, s)

/-- The C++ `esp8266::get_status`: one cooperative step. -/
def get_status (e : esp8266) (s : Serial) : state × esp8266 × Serial :=
  let es := if e.m_state = state.reset then transition_state e s else (e, s)
  let e := es.1
  let s := es.2
  match e.m_read_state with
  | read_state.until_sequence =>
    let x := cfr_done e.m_commander s
    let e := { e with m_commander := x.2.1 }
    let e := if x.1 then { e with m_read_state := read_state.complete } else e
    (e.m_state, e, x.2.2)
  | read_state.into_buffer =>
    let x := rib_done e s
    let e := if x.1 then { x.2.1 with m_read_state := read_state.complete } else x.2.1
    (e.m_state, e, x.2.2)
  | read_state.integer =>
    let x := ri_done e.m_integer_reader s
    let e := { e with m_integer_reader := x.2.1 }
    let e := if x.1 then { e with m_read_state := read_state.complete } else e
    (e.m_state, e, x.2.2)
  | read_state.complete =>
    let e := { e with m_state := e.m_next_state }
    let es := transition_state e s
    (es.1.m_state, es.1, es.2)

/-- The C++ `esp8266::request`: latch the request, aim at
`connecting_to_server` and immediately run `transition_state` (which still
dispatches on the current phase). -/
def request (e : esp8266) (p_request : request_t) (s : Serial) : esp8266 × Serial :=
  transition_state
    { e with m_request := p_request, m_next_state := state.connecting_to_server } s

/-- The C++ `esp8266::change_access_point`. -/
def change_access_point (e : esp8266) (p_ssid p_password : List Nat) : esp8266 :=
  { e with m_ssid := p_ssid, m_password := p_password,
           m_next_state := state.connected_to_ap }

/-- The C++ `esp8266::connected`: the phase is at least `connected_to_ap`
in declaration order. -/
def connected (e : esp8266) : Bool :=
  match e.m_state with
  | state.reset | state.disable_echo | state.configure_as_http_client
  | state.attempting_ap_connection => false
  | _ => true

/-- The C++ `esp8266::response` accessor: the whole borrowed buffer. -/
def esp8266.response (e : esp8266) : List Nat := e.m_response

/-- One `get_status` call viewed as a step on the (driver, serial) pair. -/
def status_step (p : esp8266 × Serial) : esp8266 × Serial :=
  (get_status p.1 p.2).2

/-- Iterated `get_status` calls. -/
def run_status (n : Nat) (p : esp8266 × Serial) : esp8266 × Serial :=
  status_step^[n] p

/-- The cursor automaton of the scan reader: on a matching byte advance,
on a mismatching byte reset to 0; a full match is absorbing. -/
def scanStep (seq : List Nat) (i : Nat) (b : Nat) : Nat :=
  if i = seq.length then i
  else if seq[i]? = some b then i + 1 else 0

/-- The cursor automaton run over a byte stream. -/
def scanRun (seq : List Nat) (i : Nat) (str : List Nat) : Nat :=
  str.foldl (scanStep seq) i

theorem scanRun_nil (seq : List Nat) (i : Nat) : scanRun seq i [] = i := rfl

theorem scanRun_cons (seq : List Nat) (i b : Nat) (t : List Nat) :
    scanRun seq i (b :: t) = scanRun seq (scanStep seq i b) t := rfl

theorem scanRun_append (seq : List Nat) (i : Nat) (x y : List Nat) :
    scanRun seq i (x ++ y) = scanRun seq (scanRun seq i x) y :=
  List.foldl_append _ _ _ _

theorem scanStep_sat (seq : List Nat) (b : Nat) :
    scanStep seq seq.length b = seq.length := by
  simp [scanStep]

theorem scanRun_sat (seq t : List Nat) : scanRun seq seq.length t = seq.length := by
  induction t with
  | nil => rfl
  | cons b t ih => rw [scanRun_cons, scanStep_sat]; exact ih

theorem scanRun_of_isPrefixOf (seq : List Nat) :
    ∀ (t : List Nat) (i : Nat), i ≤ seq.length →
      (seq.drop i).isPrefixOf t = true → scanRun seq i t = seq.length := by
  intro t
  induction t with
  | nil =>
    intro i hle hpre
    have hnil : seq.drop i = [] := by
      cases hd : seq.drop i with
      | nil => rfl
      | cons a t => rw [hd] at hpre; exact Bool.noConfusion hpre
    have hlen : seq.length ≤ i := List.drop_eq_nil_iff.mp hnil
    rw [scanRun_nil]
    omega
  | cons b t ih =>
    intro i hle hpre
    by_cases hi : i = seq.length
    · subst hi; exact scanRun_sat seq (b :: t)
    · have hilt : i < seq.length := lt_of_le_of_ne hle hi
      rw [List.drop_eq_getElem_cons hilt, List.isPrefixOf_cons₂] at hpre
      simp only [Bool.and_eq_true, beq_iff_eq] at hpre
      have hget : seq[i]? = some b := by
        rw [List.getElem?_eq_getElem hilt, hpre.1]
      rw [scanRun_cons]
      have hstep : scanStep seq i b = i + 1 := by simp [scanStep, hi, hget]
      rw [hstep]
      exact ih (i + 1) hilt hpre.2

theorem scanRun_reaches (seq : List Nat) :
    ∀ (t : List Nat) (j : Nat), scanRun seq j t = seq.length →
      j = seq.length ∨ (seq.drop j).isPrefixOf t = true ∨
        ∃ i, i ≤ t.length ∧ scanRun seq j (t.take i) = 0 ∧
          seq.isPrefixOf (t.drop i) = true := by
  intro t
  induction t with
  | nil => intro j h; left; exact h
  | cons b t ih =>
    intro j h
    rw [scanRun_cons] at h
    rcases ih (scanStep seq j b) h with h1 | h2 | h3
    · by_cases hj : j = seq.length
      · left; exact hj
      · by_cases hget : seq[j]? = some b
        · have hstep : scanStep seq j b = j + 1 := by simp [scanStep, hj, hget]
          rw [hstep] at h1
          rcases List.getElem?_eq_some.mp hget with ⟨hjlt, hb⟩
          right; left
          have hnil : seq.drop (j + 1) = [] := List.drop_eq_nil_iff.mpr (by omega)
          rw [List.drop_eq_getElem_cons hjlt, hnil, hb, List.isPrefixOf_cons₂]
          simp [List.isPrefixOf]
        · have hstep : scanStep seq j b = 0 := by simp [scanStep, hj, hget]
          rw [hstep] at h1
          have hseq : seq = [] := List.length_eq_zero.mp h1.symm
          right; left
          subst hseq
          simp [List.isPrefixOf]
    · by_cases hj : j = seq.length
      · left; exact hj
      · by_cases hget : seq[j]? = some b
        · have hstep : scanStep seq j b = j + 1 := by simp [scanStep, hj, hget]
          rw [hstep] at h2
          rcases List.getElem?_eq_some.mp hget with ⟨hjlt, hb⟩
          right; left
          rw [List.drop_eq_getElem_cons hjlt, hb, List.isPrefixOf_cons₂]
          simp [h2]
        · have hstep : scanStep seq j b = 0 := by simp [scanStep, hj, hget]
          rw [hstep] at h2
          right; right
          refine ⟨1, by simp, ?_, ?_⟩
          · show scanRun seq j [b] = 0
            rw [scanRun_cons, scanRun_nil, hstep]
          · simpa using h2
    · rcases h3 with ⟨i, hi, hrun, hpre⟩
      right; right
      refine ⟨i + 1, by simpa using Nat.succ_le_succ hi, ?_, ?_⟩
      · show scanRun seq j (b :: t.take i) = 0
        rw [scanRun_cons]
        exact hrun
      · simpa using hpre

/-- The terminator is fully matched by the reset-to-zero automaton exactly
when it occurs as a contiguous substring starting at a position where the
cursor was 0. -/
theorem scanRun_done_iff (seq S : List Nat) :
    scanRun seq 0 S = seq.length ↔
      ∃ i, i ≤ S.length ∧ scanRun seq 0 (S.take i) = 0 ∧
        seq.isPrefixOf (S.drop i) = true := by
  constructor
  · intro h
    rcases scanRun_reaches seq S 0 h with h1 | h2 | h3
    · have hseq : seq = [] := List.length_eq_zero.mp h1.symm
      subst hseq
      exact ⟨0, Nat.zero_le _, rfl, by simp [List.isPrefixOf]⟩
    · exact ⟨0, Nat.zero_le _, rfl, by simpa using h2⟩
    · exact h3
  · rintro ⟨i, hi, hrun, hpre⟩
    have hsplit := scanRun_append seq 0 (S.take i) (S.drop i)
    rw [List.take_append_drop] at hsplit
    rw [hsplit, hrun]
    exact scanRun_of_isPrefixOf seq (S.drop i) 0 (Nat.zero_le _) (by simpa using hpre)

theorem cfr_done_sat (r : command_and_find_response) (s : Serial)
    (h : r.m_search_index = r.m_sequence.length) : cfr_done r s = (true, r, s) := by
  simp [cfr_done, h]

theorem cfr_run_sat (r : command_and_find_response) (s : Serial) (n : Nat)
    (h : r.m_search_index = r.m_sequence.length) :
    cfr_run (n + 1) r s = (true, r, s) := by
  have hfix : cfr_tick (true, r, s) = (true, r, s) := by
    simp [cfr_tick, cfr_done_sat r s h]
  have h0 : cfr_tick (false, r, s) = (true, r, s) := by
    simp [cfr_tick, cfr_done_sat r s h]
  unfold cfr_run
  rw [Function.iterate_succ_apply, h0, Function.iterate_fixed hfix]

theorem cfr_run_stall (r : command_and_find_response) (O : List Nat) (n : Nat)
    (h : ¬ r.m_search_index = r.m_sequence.length) (hs : r.m_sent_command = true) :
    cfr_run n r ⟨[], O⟩ = (false, r, ⟨[], O⟩) := by
  have hfix : cfr_tick (false, r, ⟨[], O⟩) = (false, r, ⟨[], O⟩) := by
    simp [cfr_tick, cfr_done, h, hs, cfr_read]
  unfold cfr_run
  exact Function.iterate_fixed hfix n

theorem cfr_run_eq_scan (cmd seq : List Nat) :
    ∀ (S : List Nat) (i n : Nat) (O : List Nat), S.length + 1 ≤ n →
      (cfr_run n ⟨i, true, cmd, seq⟩ ⟨S, O⟩).1 =
        decide (scanRun seq i S = seq.length) := by
  intro S
  induction S with
  | nil =>
    intro i n O hn
    by_cases hi : i = seq.length
    · obtain ⟨m, rfl⟩ : ∃ m, n = m + 1 := ⟨n - 1, by omega⟩
      rw [cfr_run_sat _ _ m hi]
      simp [scanRun_nil, hi]
    · rw [cfr_run_stall _ O n hi rfl]
      simp [scanRun_nil, hi]
  | cons b t ih =>
    intro i n O hn
    by_cases hi : i = seq.length
    · obtain ⟨m, rfl⟩ : ∃ m, n = m + 1 := ⟨n - 1, by omega⟩
      rw [cfr_run_sat _ _ m hi]
      subst hi
      simp [scanRun_sat]
    · obtain ⟨m, rfl⟩ : ∃ m, n = m + 1 := ⟨n - 1, by omega⟩
      have htick : cfr_tick (false, ⟨i, true, cmd, seq⟩, ⟨b :: t, O⟩) =
          (false, ⟨scanStep seq i b, true, cmd, seq⟩, ⟨t, O⟩) := by
        by_cases hget : seq[i]? = some b
        · simp [cfr_tick, cfr_done, hi, cfr_read, hget, scanStep]
        · simp [cfr_tick, cfr_done, hi, cfr_read, hget, scanStep]
      have hrec := ih (scanStep seq i b) m O (by simpa using hn)
      unfold cfr_run at hrec ⊢
      rw [Function.iterate_succ_apply, htick, hrec, scanRun_cons]

theorem cfr_run_fresh (cmd seq S O : List Nat) (n : Nat) (hn : S.length + 1 ≤ n) :
    (cfr_run n ⟨0, false, cmd, seq⟩ ⟨S, O⟩).1 =
      decide (scanRun seq 0 S = seq.length) := by
  by_cases h0 : (0 : Nat) = seq.length
  · obtain ⟨m, rfl⟩ : ∃ m, n = m + 1 := ⟨n - 1, by omega⟩
    rw [cfr_run_sat _ _ m h0]
    have hseq : seq = [] := List.length_eq_zero.mp h0.symm
    subst hseq
    have hrun : scanRun [] 0 S = 0 := scanRun_sat [] S
    simp [hrun]
  · obtain ⟨m, rfl⟩ : ∃ m, n = m + 1 := ⟨n - 1, by omega⟩
    cases S with
    | nil =>
      have htick : cfr_tick (false, ⟨0, false, cmd, seq⟩, ⟨[], O⟩) =
          (false, ⟨0, true, cmd, seq⟩, ⟨[], O ++ cmd⟩) := by
        simp [cfr_tick, cfr_done, h0, cfr_read, serial_write]
      unfold cfr_run
      rw [Function.iterate_succ_apply, htick]
      have hstall := cfr_run_stall ⟨0, true, cmd, seq⟩ (O ++ cmd) m h0 rfl
      unfold cfr_run at hstall
      rw [hstall]
      simp [scanRun_nil, h0]
    | cons b t =>
      have htick : cfr_tick (false, ⟨0, false, cmd, seq⟩, ⟨b :: t, O⟩) =
          (false, ⟨scanStep seq 0 b, true, cmd, seq⟩, ⟨t, O ++ cmd⟩) := by
        by_cases hget : seq[0]? = some b
        · simp [cfr_tick, cfr_done, h0, cfr_read, hget, scanStep, serial_write]
        · simp [cfr_tick, cfr_done, h0, cfr_read, hget, scanStep, serial_write]
      have hrec := cfr_run_eq_scan cmd seq t (scanStep seq 0 b) m (O ++ cmd)
        (by simpa using hn)
      unfold cfr_run at hrec ⊢
      rw [Function.iterate_succ_apply, htick, hrec, scanRun_cons]

/-- C7: for every byte stream S fed one tick at a time to the scan reader
after `new_search(command, terminator)`, the reader reports done exactly
when the terminator appears in S as a contiguous substring starting at a
position where the internal cursor was 0, under the reset-to-zero mismatch
policy; once the cursor equals the terminator size every further tick
returns true without touching the serial; and an empty terminator
completes immediately. -/
theorem C7_scan_reader (cmd seq S O : List Nat) (r : command_and_find_response)
    (s : Serial) (n : Nat) :
    ((cfr_run (S.length + 1) (cfr_new_search cmd seq r) ⟨S, O⟩).1 = true ↔
      ∃ i, i ≤ S.length ∧ scanRun seq 0 (S.take i) = 0 ∧
        seq.isPrefixOf (S.drop i) = true) ∧
    (r.m_search_index = r.m_sequence.length → cfr_run (n + 1) r s = (true, r, s)) ∧
    cfr_done (cfr_new_search cmd [] r) s = (true, cfr_new_search cmd [] r, s) := by
  refine ⟨?_, ?_, ?_⟩
  · have h := cfr_run_fresh cmd seq S O (S.length + 1) (le_refl _)
    have hns : cfr_new_search cmd seq r =
        (⟨0, false, cmd, seq⟩ : command_and_find_response) := rfl
    rw [hns, h, decide_eq_true_eq]
    exact scanRun_done_iff seq S
  · intro h
    exact cfr_run_sat r s n h
  · exact cfr_done_sat _ _ rfl

/-- C7 witness: terminator `A` is found in the stream `BA` after a
mismatching first byte. -/
theorem C7_scan_reader_witness :
    (cfr_run 3 (cfr_new_search [] [65] ⟨0, false, [], []⟩) ⟨[66, 65], []⟩).1 = true :=
  ((C7_scan_reader [] [65] [66, 65] [] ⟨0, false, [], []⟩ ⟨[], []⟩ 0).1).mpr
    ⟨1, by decide, by decide, by decide⟩

theorem decVal_cons (acc b : Nat) (t : List Nat) :
    decVal acc (b :: t) = decVal (acc * 10 + (b - 48)) t := rfl

theorem decValM_cons (acc b : Nat) (t : List Nat) :
    decValM acc (b :: t) = decValM ((acc * 10 + (b - 48)) % 4294967296) t := rfl

theorem decVal_le (D : List Nat) : ∀ acc : Nat, acc ≤ decVal acc D := by
  induction D with
  | nil => intro acc; exact le_refl _
  | cons b t ih =>
    intro acc
    rw [decVal_cons]
    have h1 : acc ≤ acc * 10 + (b - 48) := by omega
    exact le_trans h1 (ih (acc * 10 + (b - 48)))

theorem decValM_eq_decVal (D : List Nat) :
    ∀ acc, decVal acc D < 4294967296 → decValM acc D = decVal acc D := by
  induction D with
  | nil => intro acc _; rfl
  | cons b t ih =>
    intro acc h
    rw [decVal_cons] at h
    rw [decValM_cons, decVal_cons]
    have hmod : (acc * 10 + (b - 48)) % 4294967296 = acc * 10 + (b - 48) :=
      Nat.mod_eq_of_lt (lt_of_le_of_lt (decVal_le t _) h)
    rw [hmod]
    exact ih _ h

theorem ri_iter_skip (P : List Nat) :
    ∀ (rest O : List Nat), (∀ b ∈ P, isDigitByte b = false) →
      ri_tick^[P.length] (false, ⟨false, false, 0⟩, ⟨P ++ rest, O⟩) =
        (false, ⟨false, false, 0⟩, ⟨rest, O⟩) := by
  induction P with
  | nil => intro rest O _; rfl
  | cons b t ih =>
    intro rest O h
    have hb : isDigitByte b = false := h b (by simp)
    have htick : ri_tick (false, ⟨false, false, 0⟩, ⟨b :: (t ++ rest), O⟩) =
        (false, ⟨false, false, 0⟩, ⟨t ++ rest, O⟩) := by
      simp [ri_tick, ri_done, hb]
    have hlen : (b :: t).length = t.length + 1 := rfl
    rw [hlen, Function.iterate_succ_apply, show ((b :: t) ++ rest) = b :: (t ++ rest) from rfl,
      htick]
    exact ih rest O fun x hx => h x (by simp [hx])

theorem ri_iter_digits (D : List Nat) :
    ∀ (acc : Nat) (rest O : List Nat), (∀ b ∈ D, isDigitByte b = true) →
      ri_tick^[D.length] (false, ⟨false, true, acc⟩, ⟨D ++ rest, O⟩) =
        (false, ⟨false, true, decValM acc D⟩, ⟨rest, O⟩) := by
  induction D with
  | nil => intro acc rest O _; rfl
  | cons b t ih =>
    intro acc rest O h
    have hb : isDigitByte b = true := h b (by simp)
    have htick : ri_tick (false, ⟨false, true, acc⟩, ⟨b :: (t ++ rest), O⟩) =
        (false, ⟨false, true, (acc * 10 + (b - 48)) % 4294967296⟩, ⟨t ++ rest, O⟩) := by
      simp [ri_tick, ri_done, hb]
    have hlen : (b :: t).length = t.length + 1 := rfl
    rw [hlen, Function.iterate_succ_apply, show ((b :: t) ++ rest) = b :: (t ++ rest) from rfl,
      htick, decValM_cons]
    exact ih _ rest O fun x hx => h x (by simp [hx])

/-- C8 (amended): for every decimal digit string of one to ten digits whose
value n fits the 32-bit accumulator, preceded by arbitrary non-digit bytes
and followed by a non-digit terminator byte, the restarted integer reader
reports done after consuming exactly the prefix, the digits and the one
terminator byte, and its value equals n. -/
theorem C8_integer_reader (P D : List Nat) (c : Nat) (R O : List Nat) (r : read_integer)
    (hP : ∀ b ∈ P, isDigitByte b = false)
    (hD : D ≠ [])
    (hDd : ∀ b ∈ D, isDigitByte b = true)
    (hlen : D.length ≤ 10)
    (hval : decVal 0 D < 4294967296)
    (hc : isDigitByte c = false) :
    ri_run (P.length + D.length + 1) (ri_restart r) ⟨P ++ (D ++ (c :: R)), O⟩ =
      (true, ⟨true, true, decVal 0 D⟩, ⟨R, O⟩) := by
  obtain ⟨b, D', rfl⟩ : ∃ b D', D = b :: D' := by
    cases D with
    | nil => exact absurd rfl hD
    | cons b D' => exact ⟨b, D', rfl⟩
  have hb : isDigitByte b = true := hDd b (by simp)
  have hres : ri_restart r = (⟨false, false, 0⟩ : read_integer) := rfl
  have hcnt : P.length + (b :: D').length + 1 = 1 + (D'.length + (1 + P.length)) := by
    simp; omega
  unfold ri_run
  rw [hres, hcnt, Function.iterate_add_apply, Function.iterate_add_apply,
    Function.iterate_add_apply]
  rw [Function.iterate_one]
  rw [ri_iter_skip P ((b :: D') ++ (c :: R)) O hP]
  have hstep2 : ri_tick (false, ⟨false, false, 0⟩, ⟨(b :: D') ++ (c :: R), O⟩) =
      (false, ⟨false, true, (0 * 10 + (b - 48)) % 4294967296⟩, ⟨D' ++ (c :: R), O⟩) := by
    simp [ri_tick, ri_done, hb]
  rw [hstep2]
  rw [ri_iter_digits D' _ (c :: R) O fun x hx => hDd x (by simp [hx])]
  have hv : decValM ((0 * 10 + (b - 48)) % 4294967296) D' = decVal 0 (b :: D') := by
    rw [← decValM_cons]
    exact decValM_eq_decVal _ 0 hval
  rw [hv]
  simp [ri_tick, ri_done, hc]

/-- C8 witness: the stream `+85:H...` yields 85 after four ticks, leaving
the trailing byte unread. -/
theorem C8_integer_reader_witness :
    ri_run 4 (ri_restart ⟨true, false, 0⟩) ⟨[43] ++ ([56, 53] ++ (58 :: [72])), []⟩ =
      (true, ⟨true, true, 85⟩, ⟨[72], []⟩) :=
  C8_integer_reader [43] [56, 53] 58 [72] [] ⟨true, false, 0⟩
    (by decide) (by decide) (by decide) (by decide) (by decide) (by decide)

/-- C8 counterexample: the ten-digit value 9999999999 overflows the 32-bit
accumulator, so the reader's value is 1410065407, not 9999999999. -/
theorem C8_counterexample :
    (ri_run 11 (ri_restart ⟨true, false, 0⟩)
        ⟨List.replicate 10 57 ++ [58], []⟩).2.1.m_integer = 1410065407 ∧
      ¬ (ri_run 11 (ri_restart ⟨true, false, 0⟩)
          ⟨List.replicate 10 57 ++ [58], []⟩).2.1.m_integer = 9999999999 := by
  constructor
  · decide
  · decide

theorem spliceAt_nil (buf : List Nat) (pos : Nat) : spliceAt buf pos [] = buf := by
  simp [spliceAt]

theorem spliceAt_length (buf : List Nat) (pos : Nat) (bytes : List Nat)
    (h : pos + bytes.length ≤ buf.length) :
    (spliceAt buf pos bytes).length = buf.length := by
  simp [spliceAt, List.length_take, List.length_drop]
  omega

theorem spliceAt_getElem_left (buf : List Nat) (pos : Nat) (bytes : List Nat) (j : Nat)
    (hj : j < pos) (h : pos ≤ buf.length) :
    (spliceAt buf pos bytes)[j]? = buf[j]? := by
  unfold spliceAt
  have h1 : j < (buf.take pos).length := by rw [List.length_take]; omega
  rw [List.getElem?_append_left h1, List.getElem?_take_of_lt hj]

theorem spliceAt_zero_getElem_lt (buf bytes : List Nat) (j : Nat)
    (hj : j < bytes.length) : (spliceAt buf 0 bytes)[j]? = bytes[j]? := by
  unfold spliceAt
  rw [List.take_zero, List.nil_append]
  exact List.getElem?_append_left hj

theorem spliceAt_getElem_right (buf : List Nat) (pos : Nat) (bytes : List Nat) (j : Nat)
    (hj : pos + bytes.length ≤ j) (h : pos + bytes.length ≤ buf.length) :
    (spliceAt buf pos bytes)[j]? = buf[j]? := by
  unfold spliceAt
  have hlen : (buf.take pos).length = pos := by rw [List.length_take]; omega
  rw [List.getElem?_append_right (by rw [hlen]; omega)]
  rw [hlen]
  rw [List.getElem?_append_right (by omega)]
  rw [List.getElem?_drop]
  have hidx : pos + bytes.length + (j - pos - bytes.length) = j := by omega
  rw [hidx]

theorem target_buffer_set (e : esp8266) (l : List Nat) (rd : read_into_buffer)
    (hrd : rd.m_target = e.m_reader.m_target) :
    target_buffer { set_target_buffer e l with m_reader := rd } = l := by
  cases htb : e.m_reader.m_target <;>
    simp [target_buffer, set_target_buffer, htb, hrd]

/-- C10: the two fixed-length read destinations are installed with no
clamping or length check: on entry to `reading_first_packet` the span is
the first N bytes of the 1460-byte scratch packet, in bounds iff N ≤ 1460;
on entry to `read_packet_into_response` it is the response subspan at the
write cursor of the announced length, in bounds iff cursor + N fits the
response buffer; and whenever the installed span is in bounds, a buffered
serial read preserves the buffer size and leaves every byte outside the
span untouched. -/
theorem C10_read_bounds (e : esp8266) (s : Serial) (hpkt : e.m_packet.length = 1460) :
    (e.m_state = state.reading_first_packet →
      (transition_state e s).1.m_reader =
        { m_target := buffer_target.packet, m_offset := 0,
          m_length := e.m_integer_reader.m_integer, m_read_index := 0 } ∧
      ((transition_state e s).1.m_reader.m_offset + (transition_state e s).1.m_reader.m_length ≤
          (transition_state e s).1.m_packet.length ↔
        e.m_integer_reader.m_integer ≤ 1460)) ∧
    (e.m_state = state.read_packet_into_response →
      (transition_state e s).1.m_reader =
        { m_target := buffer_target.response, m_offset := e.m_response_position,
          m_length := e.m_integer_reader.m_integer, m_read_index := 0 } ∧
      ((transition_state e s).1.m_reader.m_offset + (transition_state e s).1.m_reader.m_length ≤
          (transition_state e s).1.m_response.length ↔
        e.m_response_position + e.m_integer_reader.m_integer ≤ e.m_response.length)) ∧
    (e.m_reader.m_offset + e.m_reader.m_length ≤ (target_buffer e).length →
      (target_buffer (rib_done e s).2.1).length = (target_buffer e).length ∧
      ∀ j, j < e.m_reader.m_offset ∨ e.m_reader.m_offset + e.m_reader.m_length ≤ j →
        (target_buffer (rib_done e s).2.1)[j]? = (target_buffer e)[j]?) := by
  refine ⟨?_, ?_, ?_⟩
  · intro hst
    refine ⟨?_, ?_⟩
    · simp only [transition_state, hst]
    · simp only [transition_state, hst]
      simp [hpkt]
  · intro hst
    refine ⟨?_, ?_⟩
    · simp only [transition_state, hst]
    · simp only [transition_state, hst]
  · intro hin
    by_cases hidx : e.m_reader.m_read_index = e.m_reader.m_length
    · simp only [rib_done, if_pos hidx]
      exact ⟨trivial, fun j _ => trivial⟩
    · have htb : target_buffer (rib_done e s).2.1 =
          spliceAt (target_buffer e) (e.m_reader.m_offset + e.m_reader.m_read_index)
            (s.input.take (min s.input.length
              (e.m_reader.m_length - e.m_reader.m_read_index))) := by
        simp only [rib_done, if_neg hidx]
        exact target_buffer_set _ _ _ rfl
      set cnt := min s.input.length (e.m_reader.m_length - e.m_reader.m_read_index) with hcnt
      have hbl : (s.input.take cnt).length = cnt := by
        rw [List.length_take]
        omega
      by_cases hzero : cnt = 0
      · have hnil : s.input.take cnt = [] := by rw [hzero]; rfl
        rw [htb, hnil, spliceAt_nil]
        exact ⟨rfl, fun j _ => rfl⟩
      · have hlt : e.m_reader.m_read_index < e.m_reader.m_length := by omega
        refine ⟨?_, ?_⟩
        · rw [htb]
          rw [spliceAt_length _ _ _ (by rw [hbl]; omega)]
        · intro j hj
          rw [htb]
          rcases hj with hj | hj
          · exact spliceAt_getElem_left _ _ _ _ (by omega) (by omega)
          · exact spliceAt_getElem_right _ _ _ _ (by rw [hbl]; omega) (by rw [hbl]; omega)

/-- In the idle phases — `connected_to_ap`, `complete`, `failure` — whose
transition action is a no-op, a `get_status` call with the read sub-mode
complete and the successor equal to the phase changes nothing. -/
theorem status_step_idle (e : esp8266) (s : Serial)
    (hst : e.m_state = state.connected_to_ap ∨ e.m_state = state.complete ∨
      e.m_state = state.failure)
    (hnext : e.m_next_state = e.m_state)
    (hread : e.m_read_state = read_state.complete) :
    status_step (e, s) = (e, s) := by
  obtain ⟨resp, ssid, pw, cmd, rdr, ir, pkt, req, hdr, st, nst, rst, rl, rp⟩ := e
  dsimp only at hst hnext hread
  subst hnext
  subst hread
  rcases hst with h | h | h <;> subst h <;>
    simp [status_step, get_status, transition_state]

/-- A starved fixed-length read is a fixed point of `get_status`: with no
serial bytes available and the reader span unfilled, nothing changes. -/
theorem status_step_stall (e : esp8266) (s : Serial)
    (hst : ¬ e.m_state = state.reset)
    (hread : e.m_read_state = read_state.into_buffer)
    (hidx : ¬ e.m_reader.m_read_index = e.m_reader.m_length)
    (hin : s.input = []) :
    status_step (e, s) = (e, s) := by
  obtain ⟨resp, ssid, pw, cmd, rdr, ir, pkt, req, hdr, st, nst, rst, rl, rp⟩ := e
  obtain ⟨inp, out⟩ := s
  obtain ⟨tgt, off, len, idx⟩ := rdr
  dsimp only at hst hread hidx hin
  subst hread
  subst hin
  cases tgt <;>
    simp [status_step, get_status, rib_done, hst, hidx, spliceAt_nil,
      set_target_buffer, target_buffer]

/-- A driver freshly constructed with a 64-byte response buffer and
credentials `net`/`pw`. -/
def esp0 : esp8266 :=
  { m_response := List.replicate 64 0, m_ssid := strBytes "net",
    m_password := strBytes "pw" }

/-- Serial replies acknowledging the three association commands. -/
def assoc_input : List Nat := strBytes "OK\r\nOK\r\nOK\r\n"

/-- The literal single-packet GET stream of the specification: CIPSTART
ack, CIPSEND ack, the `+IPD,85:` packet, CIPCLOSE ack. -/
def req_input85 : List Nat :=
  strBytes "OK\r\nOK\r\n+IPD,85:HTTP/1.1 200 OK\r\nContent-Length: 5\r\n\r\nhello" ++
    strBytes "OK\r\n"

/-- The same stream with the announced length equal to the actual payload
size, 43 bytes. -/
def req_input43 : List Nat :=
  strBytes "OK\r\nOK\r\n+IPD,43:HTTP/1.1 200 OK\r\nContent-Length: 5\r\n\r\nhello" ++
    strBytes "OK\r\n"

/-- The GET request of the scenario. -/
def req_example : request_t :=
  { domain := strBytes "example.com", path := strBytes "/", port := strBytes "80" }

/-- Driver associated (19 ticks) with the 85 scenario stream pending. -/
def assoc85 : esp8266 × Serial := run_status 19 (esp0, ⟨assoc_input ++ req_input85, []⟩)

/-- The 85 scenario right after `request` is issued. -/
def start85 : esp8266 × Serial := request assoc85.1 req_example assoc85.2

/-- Driver associated (19 ticks) with the 43 scenario stream pending. -/
def assoc43 : esp8266 × Serial := run_status 19 (esp0, ⟨assoc_input ++ req_input43, []⟩)

/-- The 43 scenario right after `request` is issued. -/
def start43 : esp8266 × Serial := request assoc43.1 req_example assoc43.2

/-- A driver on entry to `preparing_request` with the example request. -/
def esp_prep : esp8266 :=
  { esp0 with m_request := req_example, m_state := state.preparing_request }

/-- C1 counterexample: on a successful `preparing_request` entry the active
search terminator is `+IPD,`, not `OK\r\n`, and the successor phase
recorded is `get_first_packet_length`, not `sending_request`: the
`sending_request` arm has already run by fallthrough. -/
theorem C1_counterexample :
    (transition_state esp_prep ⟨[], []⟩).1.m_next_state = state.get_first_packet_length ∧
    (transition_state esp_prep ⟨[], []⟩).1.m_commander.m_sequence = strBytes "+IPD," ∧
    ¬ (transition_state esp_prep ⟨[], []⟩).1.m_commander.m_sequence = ok_bytes ∧
    ¬ (transition_state esp_prep ⟨[], []⟩).1.m_next_state = state.sending_request := by
  decide

/-- C1 (amended): on entry to `preparing_request` the driver formats the
request into the response buffer, writes `AT+CIPSEND=<len>\r\n`, and falls
through into the `sending_request` arm: the active reader ends up scanning
for `+IPD,` with the formatted request as its command, the successor phase
is `get_first_packet_length`, and the `OK\r\n` search installed before the
fallthrough is immediately overwritten. -/
theorem C1_preparing_request_fallthrough (e : esp8266) (s : Serial)
    (hst : e.m_state = state.preparing_request) :
    (transition_state e s).1.m_next_state = state.get_first_packet_length ∧
    (transition_state e s).1.m_read_state = read_state.until_sequence ∧
    (transition_state e s).1.m_commander.m_sequence = strBytes "+IPD," ∧
    (transition_state e s).1.m_commander.m_command =
      (snprintf_write e.m_response (fmt_request e.m_request)).take
        (fmt_request e.m_request).length ∧
    (transition_state e s).1.m_response =
      snprintf_write e.m_response (fmt_request e.m_request) ∧
    (transition_state e s).1.m_request_length =
      Int.ofNat (fmt_request e.m_request).length ∧
    (transition_state e s).2.output = s.output ++
      (strBytes "AT+CIPSEND=" ++ natDecimalBytes (fmt_request e.m_request).length ++
        strBytes "\r\n") := by
  simp only [transition_state, hst]
  split_ifs with h1 h2
  · exact absurd h1 (Int.not_lt.mpr (Int.ofNat_nonneg _))
  · exact absurd h2 (Int.not_lt.mpr (Int.ofNat_nonneg _))
  · simp [sending_request_action, serial_write, cfr_new_search, List.append_assoc,
      Int.toNat_ofNat]

/-- C1 witness at the concrete `preparing_request` entry. -/
theorem C1_preparing_request_fallthrough_witness :
    (transition_state esp_prep ⟨[], []⟩).1.m_next_state = state.get_first_packet_length :=
  (C1_preparing_request_fallthrough esp_prep ⟨[], []⟩ (by decide)).1

/-- One tick from reset, mid-association: the driver is scanning for the
`ATE0` acknowledgement. -/
def esp_echo_pair : esp8266 × Serial := run_status 1 (esp0, ⟨strBytes "OK\r\nOK\r\n", []⟩)

/-- The driver of `esp_echo_pair` right after `request` is issued. -/
def c2pair : esp8266 × Serial := request esp_echo_pair.1 req_example esp_echo_pair.2

/-- C2 counterexample: calling `request` while the driver is in
`disable_echo` re-runs the `disable_echo` transition action, which
overwrites the pending next phase, so the next phase entered is
`configure_as_http_client`, not `connecting_to_server`. -/
theorem C2_counterexample :
    esp_echo_pair.1.m_state = state.disable_echo ∧
    c2pair.1.m_next_state = state.configure_as_http_client ∧
    (run_status 5 c2pair).1.m_state = state.disable_echo ∧
    (run_status 6 c2pair).1.m_state = state.configure_as_http_client ∧
    ¬ (run_status 6 c2pair).1.m_state = state.connecting_to_server := by
  decide

/-- C2 (amended): `request` latches the request and aims the pipeline at
`connecting_to_server`, but immediately re-runs the current phase's
transition action; only in the phases whose action is a no-op —
`connected_to_ap`, `complete` and `failure` — does the aim stand, and the
next `get_status` call then enters `connecting_to_server`, emitting
`AT+CIPSTART="TCP","<domain>",<port>` and scanning for `OK\r\n`; in every
other phase the action overwrites the pending next phase. -/
theorem C2_request_from_idle_phases (e : esp8266) (s : Serial) (r : request_t)
    (hst : e.m_state = state.connected_to_ap ∨ e.m_state = state.complete ∨
      e.m_state = state.failure) :
    (request e r s).1.m_request = r ∧
    (request e r s).1.m_next_state = state.connecting_to_server ∧
    (request e r s).1.m_state = e.m_state ∧
    (request e r s).2 = s ∧
    (e.m_read_state = read_state.complete →
      (get_status (request e r s).1 (request e r s).2).1 = state.connecting_to_server ∧
      (get_status (request e r s).1 (request e r s).2).2.2.output =
        s.output ++ (strBytes "AT+CIPSTART=\"TCP\",\"" ++ r.domain ++
          strBytes "\"," ++ r.port) ∧
      (get_status (request e r s).1 (request e r s).2).2.1.m_commander.m_sequence =
        ok_bytes) := by
  have hreq : request e r s =
      ({ e with m_request := r, m_next_state := state.connecting_to_server }, s) := by
    rcases hst with hst | hst | hst <;> simp [request, transition_state, hst]
  refine ⟨by rw [hreq], by rw [hreq], by rw [hreq], by rw [hreq], ?_⟩
  intro hrs
  rw [hreq]
  rcases hst with hst | hst | hst <;>
    simp [get_status, transition_state, hst, hrs, serial_write, cfr_new_search,
      List.append_assoc]

/-- The associated driver produced by the happy-path run. -/
def esp_connected : esp8266 := (run_status 19 (esp0, ⟨assoc_input, []⟩)).1

/-- C2 witness: from `connected_to_ap` the tick after `request` enters
`connecting_to_server`. -/
theorem C2_request_from_idle_phases_witness :
    (get_status (request esp_connected req_example ⟨[], []⟩).1
        (request esp_connected req_example ⟨[], []⟩).2).1 =
      state.connecting_to_server :=
  ((C2_request_from_idle_phases esp_connected ⟨[], []⟩ req_example
      (Or.inl (by decide))).2.2.2.2 (by decide)).1

/-- A captured first packet: the 43-byte response followed by the zero fill
of the scratch buffer. -/
def pkt43 : List Nat :=
  strBytes "HTTP/1.1 200 OK\r\nContent-Length: 5\r\n\r\nhello" ++ List.replicate 1417 0

/-- A driver on entry to `parsing_header` whose first packet announced
N = 1460 bytes. -/
def esp_parse1460 : esp8266 :=
  { esp0 with
    m_packet := pkt43, m_state := state.parsing_header,
    m_integer_reader := { m_finished := true, m_found_digit := true, m_integer := 1460 } }

/-- C3 counterexample: a valid header with content_length 5 and
header_length 38 under an announced first-packet count N = 1460 satisfies
content_length + header_length ≤ N, yet the machine proceeds to
`get_packet_length` rather than directly to `close_connection`: the bypass
condition the code tests is N < 1460, not
content_length + header_length ≤ N. -/
theorem C3_counterexample :
    response_header_from_string pkt43 =
      { status_code := 200, content_length := 5, header_length := 38 } ∧
    5 + 38 ≤ 1460 ∧
    (transition_state esp_parse1460 ⟨[], []⟩).1.m_next_state = state.get_packet_length ∧
    ¬ (transition_state esp_parse1460 ⟨[], []⟩).1.m_next_state = state.close_connection := by
  decide

/-- C3 (amended): with a valid header that fits the response buffer, the
machine proceeds directly to `close_connection` exactly when the announced
first-packet byte count N is smaller than MAX_RESPONSE_PACKET = 1460;
otherwise it copies the N − header_length packet-tail bytes starting at
offset header_length of the scratch packet into the front of the response
buffer (so response byte j becomes packet byte header_length + j), sets
the write cursor to N − header_length, and goes to `get_packet_length`. -/
theorem C3_parsing_header_branch (e : esp8266) (s : Serial)
    (hst : e.m_state = state.parsing_header)
    (hv : (response_header_from_string e.m_packet).is_valid = true)
    (hcap : (response_header_from_string e.m_packet).content_length ≤
      e.m_response.length) :
    ((transition_state e s).1.m_next_state = state.close_connection ↔
      e.m_integer_reader.m_integer < 1460) ∧
    (1460 ≤ e.m_integer_reader.m_integer →
      (transition_state e s).1.m_next_state = state.get_packet_length ∧
      (transition_state e s).1.m_response_position =
        e.m_integer_reader.m_integer -
          (response_header_from_string e.m_packet).header_length ∧
      (transition_state e s).1.m_response =
        spliceAt e.m_response 0
          ((e.m_packet.drop (response_header_from_string e.m_packet).header_length).take
            (e.m_integer_reader.m_integer -
              (response_header_from_string e.m_packet).header_length)) ∧
      ∀ j, j < e.m_integer_reader.m_integer -
            (response_header_from_string e.m_packet).header_length →
          (response_header_from_string e.m_packet).header_length + j <
            e.m_packet.length →
          (transition_state e s).1.m_response[j]? =
            e.m_packet[(response_header_from_string e.m_packet).header_length + j]?) := by
  have hA : (!(response_header_from_string e.m_packet).is_valid) = false := by
    rw [hv]; rfl
  have hB : decide (e.m_response.length <
      (response_header_from_string e.m_packet).content_length) = false :=
    decide_eq_false (Nat.not_lt.mpr hcap)
  by_cases hN : e.m_integer_reader.m_integer < 1460
  · refine ⟨?_, ?_⟩
    · simp [transition_state, hst, hA, hB, hN]
    · intro hge; omega
  · refine ⟨?_, ?_⟩
    · simp [transition_state, hst, hA, hB, hN]
    · intro hge
      have hresp : (transition_state e s).1.m_response =
          spliceAt e.m_response 0
            ((e.m_packet.drop (response_header_from_string e.m_packet).header_length).take
              (e.m_integer_reader.m_integer -
                (response_header_from_string e.m_packet).header_length)) := by
        simp [transition_state, hst, hA, hB, hN]
      refine ⟨?_, ?_, hresp, ?_⟩
      · simp [transition_state, hst, hA, hB, hN]
      · simp [transition_state, hst, hA, hB, hN]
      · intro j hj hjp
        have hlen : j <
            ((e.m_packet.drop (response_header_from_string e.m_packet).header_length).take
              (e.m_integer_reader.m_integer -
                (response_header_from_string e.m_packet).header_length)).length := by
          rw [List.length_take, List.length_drop]
          omega
        rw [hresp, spliceAt_zero_getElem_lt _ _ _ hlen, List.getElem?_take_of_lt hj,
          List.getElem?_drop]

/-- C3 witness: with the same valid header but N = 43 < 1460 the machine
does proceed directly to `close_connection`. -/
def esp_parse43 : esp8266 :=
  { esp0 with
    m_packet := pkt43, m_state := state.parsing_header,
    m_integer_reader := { m_finished := true, m_found_digit := true, m_integer := 43 } }

/-- C3 witness theorem applying the branch characterization at N = 43. -/
theorem C3_parsing_header_branch_witness :
    (transition_state esp_parse43 ⟨[], []⟩).1.m_next_state = state.close_connection :=
  ((C3_parsing_header_branch esp_parse43 ⟨[], []⟩ (by decide) (by decide)
      (by decide)).1).mpr (by decide)

/-- C4 counterexample: with the literal stream of the claim (announced
length 85 against a 43-byte payload plus the 4-byte CIPCLOSE ack), the
fixed-length read starves after 47 bytes and the driver never reaches
`complete`, stalling in `reading_first_packet`. -/
theorem C4_counterexample :
    ¬ ∃ k : Nat, (run_status k start85).1.m_state = state.complete := by
  rintro ⟨k, hk⟩
  by_cases hlt : k < 24
  · have hball : ∀ m : Nat, m < 24 →
        ¬ (run_status m start85).1.m_state = state.complete := by decide
    exact hball k hlt hk
  · have hfix : status_step (run_status 24 start85) = run_status 24 start85 :=
      status_step_stall (run_status 24 start85).1 (run_status 24 start85).2
        (by decide) (by decide) (by decide) (by decide)
    have hst : (run_status 24 start85).1.m_state = state.reading_first_packet := by decide
    obtain ⟨m, rfl⟩ : ∃ m, k = m + 24 := ⟨k - 24, by omega⟩
    have hsame : run_status (m + 24) start85 = run_status 24 start85 := by
      unfold run_status
      rw [Function.iterate_add_apply]
      exact Function.iterate_fixed hfix m
    rw [hsame, hst] at hk
    exact absurd hk (by decide)

/-- C4 (amended): with the announced first-packet length corrected to the
actual 43-byte payload, the scenario completes: `get_status` reaches
`complete`, the parsed header is status 200 / content-length 5 /
header-length 38, and the first five bytes of the buffer view returned by
`response()` are `hello` (the view is the whole 64-byte borrowed buffer,
not a 5-byte view). -/
theorem C4_single_packet_get :
    (run_status 32 start43).1.m_state = state.complete ∧
    (run_status 32 start43).1.m_header =
      { status_code := 200, content_length := 5, header_length := 38 } ∧
    ((run_status 32 start43).1.response.take 5 = strBytes "hello" ∧
      (run_status 32 start43).1.response.length = 64) := by
  decide

/-- A driver on entry to `preparing_request` whose response buffer (32
bytes) is smaller than the 42-byte formatted request. -/
def esp_overflow : esp8266 :=
  { esp0 with
    m_response := List.replicate 32 0, m_request := req_example,
    m_state := state.preparing_request }

/-- C5: the formatted request (42 bytes) exceeds the 32-byte response
buffer, yet the driver does not fail: it writes `AT+CIPSEND=42\r\n` and
proceeds toward the `+IPD,` scan instead of transitioning to
`close_connection_failure` — the overflow check promised by the spec and
by the driver's own documentation does not exist in the code. -/
theorem C5_overflow_not_detected :
    (fmt_request req_example).length = 42 ∧
    esp_overflow.m_response.length = 32 ∧
    (transition_state esp_overflow ⟨[], []⟩).2.output = strBytes "AT+CIPSEND=42\r\n" ∧
    (transition_state esp_overflow ⟨[], []⟩).1.m_next_state =
      state.get_first_packet_length ∧
    ¬ (transition_state esp_overflow ⟨[], []⟩).1.m_next_state =
        state.close_connection_failure := by
  decide

/-- The associated driver after `change_access_point` to new credentials. -/
def esp_newap : esp8266 :=
  change_access_point esp_connected (strBytes "new") (strBytes "pw2")

/-- C6: after `change_access_point` the new credentials are stored, but the
driver parks in `connected_to_ap`, whose transition action is a no-op:
`get_status` is the identity there, so no `AT+CWJAP_CUR` — indeed no byte
at all — is ever emitted and the association phase is never re-entered,
contradicting the claim and the function's own documentation. -/
theorem C6_no_reassociation : ∀ k : Nat,
    esp_newap.m_ssid = strBytes "new" ∧
    esp_newap.m_password = strBytes "pw2" ∧
    (run_status k (esp_newap, ⟨[], []⟩)).1.m_state = state.connected_to_ap ∧
    (run_status k (esp_newap, ⟨[], []⟩)).2.output = [] := by
  have hfix : status_step (esp_newap, ⟨[], []⟩) = (esp_newap, ⟨[], []⟩) :=
    status_step_idle esp_newap ⟨[], []⟩ (Or.inl (by decide)) (by decide) (by decide)
  intro k
  have hiter : run_status k (esp_newap, ⟨[], []⟩) = (esp_newap, ⟨[], []⟩) := by
    unfold run_status
    exact Function.iterate_fixed hfix k
  rw [hiter]
  exact ⟨by decide, by decide, by decide, rfl⟩

/-- C9: terminal phases are sticky: in a `complete` or `failure`
configuration (successor equal to the phase and read sub-mode complete,
which is how the machine always enters them), `get_status` is the
identity, so any number of further calls preserves the phase, the response
buffer, and the whole driver and serial state. -/
theorem C9_terminal_sticky (e : esp8266) (s : Serial) (n : Nat)
    (hterm : e.m_state = state.complete ∨ e.m_state = state.failure)
    (hnext : e.m_next_state = e.m_state)
    (hread : e.m_read_state = read_state.complete) :
    run_status n (e, s) = (e, s) ∧
    (run_status n (e, s)).1.m_state = e.m_state ∧
    (run_status n (e, s)).1.m_response = e.m_response := by
  have hstep : status_step (e, s) = (e, s) :=
    status_step_idle e s (Or.inr hterm) hnext hread
  have hiter : run_status n (e, s) = (e, s) := by
    unfold run_status
    exact Function.iterate_fixed hstep n
  exact ⟨hiter, by rw [hiter], by rw [hiter]⟩

/-- A completed driver configuration. -/
def esp_done : esp8266 :=
  { esp0 with
    m_state := state.complete, m_next_state := state.complete,
    m_read_state := read_state.complete }

/-- C9 witness: five further `get_status` calls on a completed driver
change nothing. -/
theorem C9_terminal_sticky_witness :
    run_status 5 (esp_done, ⟨[], []⟩) = (esp_done, ⟨[], []⟩) :=
  (C9_terminal_sticky esp_done ⟨[], []⟩ 5 (Or.inl (by decide)) (by decide)
    (by decide)).1

/-- A driver on entry to `reading_first_packet` with an announced length
of 100 bytes. -/
def esp_rfp : esp8266 :=
  { esp0 with
    m_state := state.reading_first_packet,
    m_integer_reader := { m_finished := true, m_found_digit := true, m_integer := 100 } }

/-- C10 witness: the installed span is the first 100 bytes of the scratch
packet buffer and is in bounds. -/
theorem C10_read_bounds_witness :
    (transition_state esp_rfp ⟨[], []⟩).1.m_reader =
      { m_target := buffer_target.packet, m_offset := 0, m_length := 100,
        m_read_index := 0 } ∧
    (transition_state esp_rfp ⟨[], []⟩).1.m_reader.m_offset +
        (transition_state esp_rfp ⟨[], []⟩).1.m_reader.m_length ≤
      (transition_state esp_rfp ⟨[], []⟩).1.m_packet.length := by
  have h := (C10_read_bounds esp_rfp ⟨[], []⟩ (by decide)).1 (by decide)
  exact ⟨h.1, h.2.mpr (by decide)⟩

end embed
